import Mathlib

/-!
Verification of the quicksearch engine (`src/search.rs`, `src/main.rs`).

The development shallowly embeds the search engine: the query matcher,
the per-file context state machine (`SearchSink`), the document-extraction
path (`search_pdf`), the walker/worker pipeline (`search`), and the
draining wrapper (`search_files`).  External crates (regex, glob, grep's
line scanner, the `pdftotext` process) are modelled from the spec at the
boundary where the repository's code calls them; everything else is a
direct translation of the Rust source.
-/

namespace Quicksearch

/-! ## Query matcher

Modelled from the spec: the external regex crate, restricted to the
subset relevant here — literal characters, the `.` wildcard and
backslash escapes.  Other regex metacharacters (`+ * ? ( ) | [ ] ^ $`
and braces) are treated as unsupported, hence invalid, expressions.
`escapeChars` models `regex::escape`, which prefixes every
metacharacter with a backslash. -/

/-- Modelled from the spec: Rust's `str::trim` (external standard
library), removing whitespace from both ends of a string. -/
def rustTrim (s : String) : String :=
  ⟨((s.data.dropWhile Char.isWhitespace).reverse.dropWhile Char.isWhitespace).reverse⟩

inductive RTok where
  | lit (c : Char)
  | any
deriving Repr, DecidableEq

/-- The characters `regex::escape` escapes. -/
def isMeta (c : Char) : Bool :=
  c = '\\' || c = '.' || c = '+' || c = '*' || c = '?' || c = '(' || c = ')' ||
  c = '|' || c = '[' || c = ']' || c = '\x7b' || c = '\x7d' || c = '^' || c = '$' ||
  c = '#' || c = '&' || c = '-' || c = '~'

/-- Metacharacters whose unescaped use falls outside the modelled subset. -/
def unsupportedMeta (c : Char) : Bool :=
  c = '+' || c = '*' || c = '?' || c = '(' || c = ')' ||
  c = '|' || c = '[' || c = ']' || c = '\x7b' || c = '\x7d' || c = '^' || c = '$'

/-- Modelled from the spec: `regex::escape`, character-list version. -/
def escapeChars : List Char → List Char
  | [] => []
  | c :: cs => if isMeta c then '\\' :: c :: escapeChars cs else c :: escapeChars cs

/-- Modelled from the spec: compilation of a regular expression
(`RegexMatcher::new`), returning `none` on an invalid expression. -/
def compileChars : List Char → Option (List RTok)
  | [] => some []
  | c :: cs =>
    if c = '\\' then
      match cs with
      | [] => none
      | d :: rest => (compileChars rest).map (fun ts => RTok.lit d :: ts)
    else if c = '.' then (compileChars cs).map (fun ts => RTok.any :: ts)
    else if unsupportedMeta c then none
    else (compileChars cs).map (fun ts => RTok.lit c :: ts)

def tokMatch : RTok → Char → Bool
  | .lit c, d => c = d
  | .any, _ => true

/-- Does the token list match a prefix of the character list? -/
def matchHere : List RTok → List Char → Bool
  | [], _ => true
  | _ :: _, [] => false
  | t :: ts, c :: cs => tokMatch t c && matchHere ts cs

/-- Does the token list match anywhere in the character list
(`Matcher::is_match` semantics)? -/
def searchFrom (ts : List RTok) : List Char → Bool
  | [] => matchHere ts []
  | c :: cs => matchHere ts (c :: cs) || searchFrom ts cs

def isMatch (ts : List RTok) (s : String) : Bool := searchFrom ts s.data

/-- From `search.rs` lines 240–245: the per-worker matcher construction,
escaping the query first when `use_regex` is false. -/
def buildMatcher (use_regex : Bool) (query : String) : Option (List RTok) :=
  if use_regex then compileChars query.data else compileChars (escapeChars query.data)

/-- Reference predicate for substring containment: does `q` occur
contiguously inside `l`?  (Spec wording: "substring match semantics".) -/
def isPrefixCh : List Char → List Char → Bool
  | [], _ => true
  | _ :: _, [] => false
  | a :: as, b :: bs => a = b && isPrefixCh as bs

def containsSub (q : List Char) : List Char → Bool
  | [] => isPrefixCh q []
  | c :: cs => isPrefixCh q (c :: cs) || containsSub q cs

/-! ## Result records and the per-file sink (`SearchSink`) -/

/-- From `search.rs` lines 24–30. -/
structure SearchResult where
  path : String
  line_number : Nat
  line : String
  context_before : List (Nat × String)
  context_after : List (Nat × String)
deriving Repr, DecidableEq

/-- From `search.rs` lines 32–39.  The `tx` channel is modelled by
returning emitted records from each transition. -/
structure SearchSink where
  path : String
  context_before : List String
  context_after : List String
  context_lines : Nat
  last_match : Option SearchResult
deriving Repr, DecidableEq

/-- From `search.rs` lines 42–51 (`SearchSink::new`). -/
def SearchSink.new (path : String) (context_lines : Nat) : SearchSink :=
  { path := path, context_before := [], context_after := [],
    context_lines := context_lines, last_match := none }

/-- From `search.rs` lines 53–65 (`SearchSink::send_last_match`): fill in
the pending match's after-context by enumeration, emit it, clear the
after buffer. -/
def SearchSink.send_last_match (s : SearchSink) : SearchSink × List SearchResult :=
  match s.last_match with
  | none => (s, [])
  | some r =>
    let r' := { r with context_after :=
      s.context_after.mapIdx (fun i line => (r.line_number + i + 1, line)) }
    ({ s with last_match := none, context_after := [] }, [r'])

/-- A matched line as handed to the sink: its reported line number
(`SinkMatch::line_number`, absent when line counting is off) and its
bytes, `none` when they are not valid UTF-8. -/
def SearchSink.matched (s : SearchSink) (lineNumber : Option Nat) (bytes : Option String) :
    SearchSink × List SearchResult :=
  let p := s.send_last_match
  match bytes with
  | none => p
  | some line =>
    let num := lineNumber.getD 0
    let r : SearchResult :=
      { path := p.1.path
        line_number := num
        line := rustTrim line
        context_before := p.1.context_before.mapIdx
          (fun i l => (num - (p.1.context_before.length - i), l))
        context_after := [] }
    ({ p.1 with last_match := some r, context_after := [] }, p.2)

inductive ContextKind where
  | before
  | after
  | other
deriving Repr, DecidableEq

/-- From `search.rs` lines 95–113 (`SearchSink::context`). -/
def SearchSink.context (s : SearchSink) (kind : ContextKind) (bytes : Option String) :
    SearchSink × List SearchResult :=
  match bytes with
  | none => (s, [])
  | some line =>
    match kind with
    | .before =>
      let cb := s.context_before ++ [rustTrim line]
      ({ s with context_before := if cb.length > s.context_lines then cb.drop 1 else cb }, [])
    | .after =>
      if s.context_after.length < s.context_lines then
        ({ s with context_after := s.context_after ++ [rustTrim line] }, [])
      else (s, [])
    | .other => (s, [])

/-- From `search.rs` lines 115–118 (`SearchSink::finish`). -/
def SearchSink.finish (s : SearchSink) : SearchSink × List SearchResult :=
  s.send_last_match

/-- The events grep's line scanner feeds to a `Sink` for one file. -/
inductive SinkEvent where
  | matched (lineNumber : Option Nat) (bytes : Option String)
  | context (kind : ContextKind) (bytes : Option String)
  | finish
deriving Repr, DecidableEq

def sinkStep (s : SearchSink) : SinkEvent → SearchSink × List SearchResult
  | .matched n b => s.matched n b
  | .context k b => s.context k b
  | .finish => s.finish

def runSinkFrom (s : SearchSink) : List SinkEvent → SearchSink × List SearchResult
  | [] => (s, [])
  | e :: es =>
    let p := sinkStep s e
    let q := runSinkFrom p.1 es
    (q.1, p.2 ++ q.2)

/-- All records the streaming path emits for one file's event stream. -/
def runSink (path : String) (context_lines : Nat) (events : List SinkEvent) :
    List SearchResult :=
  (runSinkFrom (SearchSink.new path context_lines) events).2

/-! ## Document-extraction path (`search_pdf`) -/

/-- The possible outcomes of shelling out to `pdftotext` for one file.
The success case carries the extracted text already split into lines
(the external `String::from_utf8_lossy` + `lines()` step). -/
inductive PdfOutcome where
  | toolError (msg : String)
  | exitFailure
  | panicked
  | extracted (lines : List String)
deriving Repr, DecidableEq

def PdfOutcome.isFailure : PdfOutcome → Bool
  | .extracted _ => false
  | _ => true

/-- From `search.rs` lines 143–174: the record built for a match at
0-based index `idx` of the materialized line array, with slice-based
context windows.  Note the before-context numbering uses the configured
`C`, not the slice's actual length. -/
def pdfRecord (path : String) (C : Nat) (lines : List String) (idx : Nat)
    (trimmed : String) : SearchResult :=
  let line_num := idx + 1
  let beforeSlice := (lines.drop (idx - C)).take (idx - (idx - C))
  let afterSlice := (lines.drop (idx + 1)).take (min (idx + 1 + C) lines.length - (idx + 1))
  { path := path
    line_number := line_num
    line := trimmed
    context_before := beforeSlice.mapIdx (fun i l => (line_num - (C - i), rustTrim l))
    context_after := afterSlice.mapIdx (fun i l => (line_num + i + 1, rustTrim l)) }

/-- From `search.rs` lines 143–180: scan every line of the extracted
text, emitting a record for each non-empty trimmed line the matcher
accepts. -/
def pdfResults (path : String) (matcher : List RTok) (C : Nat)
    (lines : List String) : List SearchResult :=
  lines.enum.filterMap (fun p =>
    let trimmed := rustTrim p.2
    if trimmed ≠ "" && isMatch matcher trimmed then
      some (pdfRecord path C lines p.1 trimmed)
    else none)

/-- From `search.rs` lines 121–194 (`search_pdf`): the whole extraction
path wrapped in `catch_unwind`.  Returns the function's `Result`, the
records sent on `tx`, and the diagnostics printed to stderr. -/
def search_pdf (path : String) (matcher : List RTok) (outcome : PdfOutcome)
    (verbose : Bool) (C : Nat) :
    Except String Unit × List SearchResult × List String :=
  match outcome with
  | .toolError msg => (.error ("Failed to run pdftotext: " ++ msg), [], [])
  | .exitFailure =>
    (.ok (), [],
      if verbose then ["Failed to process PDF " ++ path ++ " (no error message)"] else [])
  | .panicked =>
    (.ok (), [],
      if verbose then ["Failed to process PDF " ++ path ++ " (no error message)"] else [])
  | .extracted lines => (.ok (), pdfResults path matcher C lines, [])

/-! ## Walker, workers and the search entry points -/

/-- Modelled from the spec: the external glob matcher on a `*`/`?`/literal
pattern subset (character classes are out of scope; within this subset
`glob::Pattern::new` never fails). -/
def globMatch (p s : List Char) : Bool :=
  match p, s with
  | [], [] => true
  | [], _ :: _ => false
  | '*' :: ps, [] => globMatch ps []
  | '*' :: ps, c :: cs => globMatch ps (c :: cs) || globMatch ('*' :: ps) cs
  | '?' :: ps, _ :: cs => globMatch ps cs
  | p0 :: ps, c :: cs => p0 = c && globMatch ps cs
  | _ :: _, [] => false
termination_by (p.length, s.length)

/-- What a worker needs of an `ignore::DirEntry`, together with the
behavior of the external layers on that file: the event stream grep's
scanner produces for it, and the outcome of `pdftotext` on it. -/
structure DirEntry where
  path : String
  file_name : String
  extension : Option String
  is_file : Option Bool
  events : List SinkEvent
  pdf : PdfOutcome
deriving Repr, DecidableEq

/-- From `search.rs` lines 314–343: the walker's per-entry callback,
folded over the traversal's entry sequence (`none` models an `Err`
entry).  A set cancellation token makes the callback quit before
dispatching anything further. -/
def walkerRun (quit : Bool) (patterns : List String) :
    List (Option DirEntry) → List DirEntry
  | [] => []
  | r :: rest =>
    if quit then []
    else
      match r with
      | none => walkerRun quit patterns rest
      | some entry =>
        if !((entry.is_file).getD false) then walkerRun quit patterns rest
        else if !(patterns.any (fun p => globMatch p.data entry.file_name.data)) then
          walkerRun quit patterns rest
        else entry :: walkerRun quit patterns rest

/-- From `search.rs` lines 257–290: processing of a single received
entry — PDFs are routed to `search_pdf` (a returned error is logged
only when verbose), non-regular files are skipped, and everything else
goes through the streaming sink.  Returns emitted records and printed
diagnostics. -/
def processEntry (verbose : Bool) (matcher : List RTok) (C : Nat) (e : DirEntry) :
    List SearchResult × List String :=
  if e.extension = some "pdf" then
    let t := search_pdf e.path matcher e.pdf verbose C
    match t.1 with
    | .error msg =>
      (t.2.1, t.2.2 ++
        (if verbose then ["Error searching PDF " ++ e.path ++ ": " ++ msg] else []))
    | .ok _ => (t.2.1, t.2.2)
  else if !((e.is_file).getD false) then ([], [])
  else (runSink e.path C e.events, [])

/-- From `search.rs` lines 251–292: a worker's receive loop.  A set
cancellation token stops the loop before processing any received
entry. -/
def workerRun (quit : Bool) (verbose : Bool) (matcher : List RTok) (C : Nat) :
    List DirEntry → List SearchResult × List String
  | [] => ([], [])
  | e :: es =>
    if quit then ([], [])
    else
      let p := processEntry verbose matcher C e
      let q := workerRun quit verbose matcher C es
      (p.1 ++ q.1, p.2 ++ q.2)

/-- From `main.rs` lines 48–59 (`SearchConfig`); the GUI-only
`files_processed` counter is omitted. -/
structure SearchConfig where
  paths : List String
  patterns : List String
  query : String
  verbose : Bool
  context_lines : Nat
  search_binary : Bool
  num_workers : Nat
  use_regex : Bool
deriving Repr, DecidableEq

/-- From `search.rs` lines 218–224: worker-count resolution
(0 = auto-detected parallelism, defaulting to 2 on failure). -/
def resolveWorkers (configured : Nat) (detected : Option Nat) : Nat :=
  if configured = 0 then (detected.getD 2) else configured

/-- From `search.rs` lines 205–355 (`search`): matcher construction
(whose `unwrap` aborts the whole search on an invalid expression before
the first worker thread is spawned), the walker filtering the
filesystem's entry sequence, and the workers producing the result
sequence.  The concurrent pipeline is modelled by its sequential
linearization — the spec guarantees no cross-file ordering. -/
def search (cfg : SearchConfig) (fs : List (Option DirEntry)) (quit : Bool) :
    Except String (List SearchResult) :=
  match buildMatcher cfg.use_regex cfg.query with
  | none => .error ("invalid regex: " ++ cfg.query)
  | some matcher =>
    .ok (workerRun quit cfg.verbose matcher cfg.context_lines
      (walkerRun quit cfg.patterns fs)).1

/-- One-by-one draining of the lazy result sequence
(`Iterator::collect`). -/
def collectIter : List SearchResult → List SearchResult
  | [] => []
  | r :: rs => r :: collectIter rs

/-- From `search.rs` lines 196–203 (`search_files`): drain `search`'s
sequence into a materialized list. -/
def search_files (cfg : SearchConfig) (fs : List (Option DirEntry)) (quit : Bool) :
    Except String (List SearchResult) :=
  (search cfg fs quit).map collectIter

/-! ## Matcher lemmas -/

lemma unsupported_isMeta {c : Char} (h : unsupportedMeta c = true) : isMeta c = true := by
  simp only [unsupportedMeta, Bool.or_eq_true, decide_eq_true_eq] at h
  simp only [isMeta, Bool.or_eq_true, decide_eq_true_eq]
  tauto

/-- Escaping always yields a valid expression, compiling to the literal
token sequence of the original query. -/
lemma compile_escape (l : List Char) :
    compileChars (escapeChars l) = some (l.map RTok.lit) := by
  induction l with
  | nil => rfl
  | cons c cs ih =>
    by_cases hm : isMeta c = true
    · simp [escapeChars, hm, compileChars, ih]
    · have hb : ¬ c = '\\' := fun h => hm (h ▸ (by decide))
      have hd : ¬ c = '.' := fun h => hm (h ▸ (by decide))
      have hu : ¬ unsupportedMeta c = true := fun h => hm (unsupported_isMeta h)
      simp only [escapeChars, hm, Bool.false_eq_true, if_false]
      rw [compileChars.eq_def]
      simp [hb, hd, hu, ih]

lemma matchHere_lit (q : List Char) : ∀ cs : List Char,
    matchHere (q.map RTok.lit) cs = isPrefixCh q cs := by
  induction q with
  | nil => intro cs; rfl
  | cons a as ih =>
    intro cs
    cases cs with
    | nil => rfl
    | cons b bs => simp [matchHere, isPrefixCh, tokMatch, ih]

lemma searchFrom_lit (q : List Char) : ∀ l : List Char,
    searchFrom (q.map RTok.lit) l = containsSub q l := by
  intro l
  induction l with
  | nil => simpa [searchFrom, containsSub] using matchHere_lit q []
  | cons c cs ih => simp [searchFrom, containsSub, matchHere_lit, ih]

/-! ## Sink lemmas -/

/-- The record `send_last_match` emits for pending `r` when the after
buffer holds `after`. -/
def finalized (r : SearchResult) (after : List String) : SearchResult :=
  { r with context_after := after.mapIdx (fun i line => (r.line_number + i + 1, line)) }

lemma send_last_match_none {s : SearchSink} (h : s.last_match = none) :
    s.send_last_match = (s, []) := by
  simp [SearchSink.send_last_match, h]

lemma send_last_match_some {s : SearchSink} {r : SearchResult}
    (h : s.last_match = some r) :
    s.send_last_match =
      ({ s with last_match := none, context_after := [] }, [finalized r s.context_after]) := by
  simp [SearchSink.send_last_match, h, finalized]

/-- The pending record `SearchSink.matched` installs for a valid matched
line, in terms of the state reached after flushing the previous match. -/
def matchRecord (s1 : SearchSink) (n : Option Nat) (line : String) : SearchResult :=
  { path := s1.path
    line_number := n.getD 0
    line := rustTrim line
    context_before := s1.context_before.mapIdx
      (fun i l => (n.getD 0 - (s1.context_before.length - i), l))
    context_after := [] }

lemma matched_none_eq (s : SearchSink) (n : Option Nat) :
    s.matched n none = s.send_last_match := rfl

lemma matched_some_eq (s : SearchSink) (n : Option Nat) (line : String) :
    s.matched n (some line) =
      ({ s.send_last_match.1 with
          last_match := some (matchRecord s.send_last_match.1 n line),
          context_after := [] }, s.send_last_match.2) := rfl

/-! ## Context-window numbering (the streaming path) -/

/-- Correct numbering of a record's before-context: the entry at 0-based
index `i` carries line number `line_number - (count - i)`. -/
def GoodBefore (r : SearchResult) : Prop :=
  ∀ i (h : i < r.context_before.length),
    (r.context_before.get ⟨i, h⟩).1 = r.line_number - (r.context_before.length - i)

/-- Correct numbering of a record's after-context: the entry at 0-based
index `j` (1-based offset `j + 1`) carries line number
`line_number + j + 1`. -/
def GoodAfter (r : SearchResult) : Prop :=
  ∀ j (h : j < r.context_after.length),
    (r.context_after.get ⟨j, h⟩).1 = r.line_number + j + 1

lemma goodAfter_finalized (r : SearchResult) (after : List String) :
    GoodAfter (finalized r after) := by
  intro j h
  have hl : j < after.length := by
    simpa [finalized, List.length_mapIdx] using h
  simp [finalized, List.length_mapIdx, List.get_mapIdx after _ j hl]

lemma goodBefore_finalized {r : SearchResult} (hr : GoodBefore r) (after : List String) :
    GoodBefore (finalized r after) := hr

lemma goodBefore_matchRecord (s1 : SearchSink) (n : Option Nat) (line : String) :
    GoodBefore (matchRecord s1 n line) := by
  intro i h
  have hl : i < s1.context_before.length := by
    simpa [matchRecord, List.length_mapIdx] using h
  simp [matchRecord, List.length_mapIdx, List.get_mapIdx s1.context_before _ i hl]

/-- Invariant: a pending match's before-context is correctly numbered. -/
def SinkNumbered (s : SearchSink) : Prop :=
  ∀ r, s.last_match = some r → GoodBefore r

lemma sinkStep_numbered {s : SearchSink} (hs : SinkNumbered s) (e : SinkEvent) :
    SinkNumbered (sinkStep s e).1 ∧
    ∀ r ∈ (sinkStep s e).2, GoodBefore r ∧ GoodAfter r := by
  cases e with
  | matched n b =>
    cases hlm : s.last_match with
    | none =>
      cases b with
      | none =>
        simp only [sinkStep, matched_none_eq, send_last_match_none hlm]
        exact ⟨hs, by simp⟩
      | some line =>
        simp only [sinkStep, matched_some_eq, send_last_match_none hlm]
        refine ⟨?_, by simp⟩
        intro r hr
        simp only [Option.some.injEq] at hr
        rw [← hr]
        exact goodBefore_matchRecord _ n line
    | some r0 =>
      cases b with
      | none =>
        simp only [sinkStep, matched_none_eq, send_last_match_some hlm]
        refine ⟨by intro r hr; simp at hr, ?_⟩
        intro r hr
        simp only [List.mem_singleton] at hr
        subst hr
        exact ⟨goodBefore_finalized (hs r0 hlm) _, goodAfter_finalized r0 _⟩
      | some line =>
        simp only [sinkStep, matched_some_eq, send_last_match_some hlm]
        constructor
        · intro r hr
          simp only [Option.some.injEq] at hr
          rw [← hr]
          exact goodBefore_matchRecord _ n line
        · intro r hr
          simp only [List.mem_singleton] at hr
          subst hr
          exact ⟨goodBefore_finalized (hs r0 hlm) _, goodAfter_finalized r0 _⟩
  | context k b =>
    cases b with
    | none => exact ⟨hs, by simp [sinkStep, SearchSink.context]⟩
    | some line =>
      cases k with
      | before =>
        refine ⟨?_, by simp [sinkStep, SearchSink.context]⟩
        intro r hr
        simp only [sinkStep, SearchSink.context] at hr
        exact hs r hr
      | after =>
        constructor
        · intro r hr
          simp only [sinkStep, SearchSink.context] at hr
          split at hr <;> exact hs r hr
        · intro r hr
          simp only [sinkStep, SearchSink.context] at hr
          split at hr <;> simp at hr
      | other => exact ⟨hs, by simp [sinkStep, SearchSink.context]⟩
  | finish =>
    cases hlm : s.last_match with
    | none =>
      simp only [sinkStep, SearchSink.finish, send_last_match_none hlm]
      exact ⟨hs, by simp⟩
    | some r0 =>
      simp only [sinkStep, SearchSink.finish, send_last_match_some hlm]
      refine ⟨by intro r hr; simp at hr, ?_⟩
      intro r hr
      simp only [List.mem_singleton] at hr
      subst hr
      exact ⟨goodBefore_finalized (hs r0 hlm) _, goodAfter_finalized r0 _⟩

lemma runSinkFrom_numbered :
    ∀ (events : List SinkEvent) (s : SearchSink), SinkNumbered s →
      ∀ r ∈ (runSinkFrom s events).2, GoodBefore r ∧ GoodAfter r := by
  intro events
  induction events with
  | nil => intro s _ r hr; simp [runSinkFrom] at hr
  | cons e es ih =>
    intro s hs r hr
    simp only [runSinkFrom, List.mem_append] at hr
    rcases hr with hr | hr
    · exact (sinkStep_numbered hs e).2 r hr
    · exact ih _ (sinkStep_numbered hs e).1 r hr

/-! ## Bounded context windows -/

/-- Invariant: both buffers and the pending match stay within the
configured window size `C`. -/
def SinkBounded (C : Nat) (s : SearchSink) : Prop :=
  s.context_lines = C ∧
  s.context_before.length ≤ C ∧
  s.context_after.length ≤ C ∧
  ∀ r, s.last_match = some r → r.context_before.length ≤ C ∧ r.context_after = []

lemma sinkStep_bounded {C : Nat} {s : SearchSink} (hs : SinkBounded C s) (e : SinkEvent) :
    SinkBounded C (sinkStep s e).1 ∧
    ∀ r ∈ (sinkStep s e).2,
      r.context_before.length ≤ C ∧ r.context_after.length ≤ C := by
  obtain ⟨hC, hb, ha, hp⟩ := hs
  cases e with
  | matched n b =>
    cases hlm : s.last_match with
    | none =>
      cases b with
      | none =>
        simp only [sinkStep, matched_none_eq, send_last_match_none hlm]
        exact ⟨⟨hC, hb, ha, hp⟩, by simp⟩
      | some line =>
        simp only [sinkStep, matched_some_eq, send_last_match_none hlm]
        refine ⟨⟨hC, hb, by simp, ?_⟩, by simp⟩
        intro r hr
        simp only [Option.some.injEq] at hr
        rw [← hr]
        simp [matchRecord, List.length_mapIdx, hb]
    | some r0 =>
      cases b with
      | none =>
        simp only [sinkStep, matched_none_eq, send_last_match_some hlm]
        refine ⟨⟨hC, hb, by simp, by intro r hr; simp at hr⟩, ?_⟩
        intro r hr
        simp only [List.mem_singleton] at hr
        subst hr
        refine ⟨(hp r0 hlm).1, ?_⟩
        simp [finalized, List.length_mapIdx, ha]
      | some line =>
        simp only [sinkStep, matched_some_eq, send_last_match_some hlm]
        constructor
        · refine ⟨hC, hb, by simp, ?_⟩
          intro r hr
          simp only [Option.some.injEq] at hr
          rw [← hr]
          simp [matchRecord, List.length_mapIdx, hb]
        · intro r hr
          simp only [List.mem_singleton] at hr
          subst hr
          refine ⟨(hp r0 hlm).1, ?_⟩
          simp [finalized, List.length_mapIdx, ha]
  | context k b =>
    cases b with
    | none => exact ⟨⟨hC, hb, ha, hp⟩, by simp [sinkStep, SearchSink.context]⟩
    | some line =>
      cases k with
      | before =>
        refine ⟨?_, by simp [sinkStep, SearchSink.context]⟩
        simp only [sinkStep, SearchSink.context]
        split
        · refine ⟨hC, ?_, ha, hp⟩
          simpa using hb
        · rename_i hgt
          refine ⟨hC, ?_, ha, hp⟩
          rw [hC] at hgt
          simpa using Nat.le_of_not_lt (by simpa using hgt)
      | after =>
        refine ⟨?_, by
          simp only [sinkStep, SearchSink.context]
          split <;> simp⟩
        simp only [sinkStep, SearchSink.context]
        split
        · rename_i hlt
          rw [hC] at hlt
          refine ⟨hC, hb, by simpa using hlt, hp⟩
        · exact ⟨hC, hb, ha, hp⟩
      | other => exact ⟨⟨hC, hb, ha, hp⟩, by simp [sinkStep, SearchSink.context]⟩
  | finish =>
    cases hlm : s.last_match with
    | none =>
      simp only [sinkStep, SearchSink.finish, send_last_match_none hlm]
      exact ⟨⟨hC, hb, ha, hp⟩, by simp⟩
    | some r0 =>
      simp only [sinkStep, SearchSink.finish, send_last_match_some hlm]
      refine ⟨⟨hC, hb, by simp, by intro r hr; simp at hr⟩, ?_⟩
      intro r hr
      simp only [List.mem_singleton] at hr
      subst hr
      refine ⟨(hp r0 hlm).1, ?_⟩
      simp [finalized, List.length_mapIdx, ha]

lemma runSinkFrom_bounded {C : Nat} :
    ∀ (events : List SinkEvent) (s : SearchSink), SinkBounded C s →
      ∀ r ∈ (runSinkFrom s events).2,
        r.context_before.length ≤ C ∧ r.context_after.length ≤ C := by
  intro events
  induction events with
  | nil => intro s _ r hr; simp [runSinkFrom] at hr
  | cons e es ih =>
    intro s hs r hr
    simp only [runSinkFrom, List.mem_append] at hr
    rcases hr with hr | hr
    · exact (sinkStep_bounded hs e).2 r hr
    · exact ih _ (sinkStep_bounded hs e).1 r hr

/-! ## Document-extraction path lemmas -/

lemma pdfRecord_bounded (path : String) (C : Nat) (lines : List String) (idx : Nat)
    (trimmed : String) :
    (pdfRecord path C lines idx trimmed).context_before.length ≤ C ∧
    (pdfRecord path C lines idx trimmed).context_after.length ≤ C := by
  constructor
  · simp only [pdfRecord, List.length_mapIdx]
    calc ((lines.drop (idx - C)).take (idx - (idx - C))).length
        ≤ idx - (idx - C) := List.length_take_le _ _
      _ ≤ C := by omega
  · simp only [pdfRecord, List.length_mapIdx]
    calc ((lines.drop (idx + 1)).take (min (idx + 1 + C) lines.length - (idx + 1))).length
        ≤ min (idx + 1 + C) lines.length - (idx + 1) := List.length_take_le _ _
      _ ≤ (idx + 1 + C) - (idx + 1) := Nat.sub_le_sub_right (Nat.min_le_left _ _) _
      _ ≤ C := by omega

lemma pdfResults_mem {path : String} {matcher : List RTok} {C : Nat}
    {lines : List String} {r : SearchResult} (hr : r ∈ pdfResults path matcher C lines) :
    ∃ idx trimmed, r = pdfRecord path C lines idx trimmed := by
  simp only [pdfResults, List.mem_filterMap] at hr
  obtain ⟨p, _, hp⟩ := hr
  split at hp
  · exact ⟨p.1, rustTrim p.2, by injection hp with h; exact h.symm⟩
  · cases hp

lemma collectIter_eq (l : List SearchResult) : collectIter l = l := by
  induction l with
  | nil => rfl
  | cons r rs ih => simp [collectIter, ih]

/-! ## Concrete fixtures used by witnesses and counterexamples -/

/-- A plain-text entry whose scan yields a single match on line 1. -/
def entryTxt : DirEntry :=
  { path := "notes.txt", file_name := "notes.txt", extension := some "txt",
    is_file := some true,
    events := [SinkEvent.matched (some 1) (some "needle"), SinkEvent.finish],
    pdf := PdfOutcome.extracted [] }

/-- A configuration with a valid literal query. -/
def cfgEx : SearchConfig :=
  { paths := ["."], patterns := ["*"], query := "needle", verbose := false,
    context_lines := 2, search_binary := false, num_workers := 1, use_regex := false }

/-- A configuration with an invalid regular-expression query. -/
def cfgBad : SearchConfig :=
  { paths := ["."], patterns := ["*"], query := "(", verbose := false,
    context_lines := 0, search_binary := false, num_workers := 1, use_regex := true }

/-- Event stream: one before-context line, then a match on line 2. -/
def exEventsC2 : List SinkEvent :=
  [SinkEvent.context ContextKind.before (some "l1"),
   SinkEvent.matched (some 2) (some "needle"), SinkEvent.finish]

/-- The single record the stream `exEventsC2` produces. -/
def rExC2 : SearchResult :=
  { path := "f", line_number := 2, line := "needle",
    context_before := [(1, "l1")], context_after := [] }

/-- Event stream prefix: two before lines, a match on line 3, one
accumulated after line — a second match is about to arrive. -/
def s4Events : List SinkEvent :=
  [SinkEvent.context ContextKind.before (some "k1"),
   SinkEvent.context ContextKind.before (some "k2"),
   SinkEvent.matched (some 3) (some "m3"),
   SinkEvent.context ContextKind.after (some "k4")]

/-- The sink state with the match on line 3 still pending. -/
def s4 : SearchSink := (runSinkFrom (SearchSink.new "h" 2) s4Events).1

/-- The pending record held in `s4`. -/
def r3 : SearchResult :=
  { path := "h", line_number := 3, line := "m3",
    context_before := [(1, "k1"), (2, "k2")], context_after := [] }

/-- `r3` finalized with the single after-context line accumulated before
the second match arrived. -/
def r3fin : SearchResult :=
  { path := "h", line_number := 3, line := "m3",
    context_before := [(1, "k1"), (2, "k2")], context_after := [(4, "k4")] }

/-- Event stream: a full window of context around a match on line 4,
with one extra before line that must be evicted. -/
def exEventsC7 : List SinkEvent :=
  [SinkEvent.context ContextKind.before (some "a1"),
   SinkEvent.context ContextKind.before (some "a2"),
   SinkEvent.context ContextKind.before (some "a3"),
   SinkEvent.matched (some 4) (some "hit"),
   SinkEvent.context ContextKind.after (some "a5"),
   SinkEvent.context ContextKind.after (some "a6"),
   SinkEvent.context ContextKind.after (some "a7"),
   SinkEvent.finish]

/-- The record the stream `exEventsC7` produces with `C = 2`. -/
def rExC7 : SearchResult :=
  { path := "g", line_number := 4, line := "hit",
    context_before := [(2, "a2"), (3, "a3")], context_after := [(5, "a5"), (6, "a6")] }

/-- Extracted PDF text with a match in the middle. -/
def pdfLinesC7 : List String := ["b1", "b2", "b3", "hit", "b5", "b6", "b7"]

/-- The record the extraction path produces from `pdfLinesC7` with `C = 2`. -/
def rPdfC7 : SearchResult :=
  { path := "g.pdf", line_number := 4, line := "hit",
    context_before := [(2, "b2"), (3, "b3")], context_after := [(5, "b5"), (6, "b6")] }

/-- A PDF entry whose extraction faults internally. -/
def ePdfFail : DirEntry :=
  { path := "bad.pdf", file_name := "bad.pdf", extension := some "pdf",
    is_file := some true, events := [], pdf := PdfOutcome.panicked }

/-! ## Claim theorems -/

/-- C1: with `use_regex` set and an invalid regular-expression query the
search fails with a configuration error before any entry is walked or
processed — the whole search is aborted; and this is the only
setup-time failure: `search` returns an error exactly when regex mode
is on and the query does not compile (an escaped literal query always
compiles). -/
theorem invalid_regex_aborts :
    (∀ (cfg : SearchConfig) (fs : List (Option DirEntry)) (q : Bool),
      cfg.use_regex = true → compileChars cfg.query.data = none →
      search cfg fs q = .error ("invalid regex: " ++ cfg.query)) ∧
    (∀ (cfg : SearchConfig) (fs : List (Option DirEntry)) (q : Bool) (e : String),
      search cfg fs q = .error e →
      cfg.use_regex = true ∧ compileChars cfg.query.data = none) := by
  constructor
  · intro cfg fs q hreg hcomp
    simp [search, buildMatcher, hreg, hcomp]
  · intro cfg fs q e herr
    by_cases hreg : cfg.use_regex = true
    · refine ⟨hreg, ?_⟩
      cases hc : compileChars cfg.query.data with
      | none => rfl
      | some ts => simp [search, buildMatcher, hreg, hc] at herr
    · have hfalse : cfg.use_regex = false := by simpa using hreg
      simp [search, buildMatcher, hfalse, compile_escape] at herr

/-- C1 witness: a concrete invalid regex query `(` in regex mode aborts
the search with a configuration error. -/
theorem invalid_regex_aborts_witness :
    search cfgBad [some entryTxt] false = .error ("invalid regex: " ++ cfgBad.query) :=
  invalid_regex_aborts.1 cfgBad [some entryTxt] false rfl (by decide)

/-- C2 counterexample: for the stream `exEventsC2` the emitted record has
match line 2 and a single before entry carrying line number 1, whereas
the claimed formula `match − (count − index − 1)` demands
`2 − (1 − 0 − 1) = 2`. -/
theorem sink_before_numbering_claim_false :
    (runSink "f" 2 exEventsC2).map (fun r => (r.line_number, r.context_before)) =
      [(2, [(1, "l1")])] ∧ (1 : Nat) ≠ 2 - (1 - 0 - 1) :=
  ⟨by decide, by decide⟩

/-- C2 (amended): for every record emitted by the streaming path, the
before-context entry at 0-based index `i` has line number
`match line number − (count of before entries − i)`, and the
after-context entry at 0-based index `j` (1-based offset `j + 1`) has
line number `match line number + j + 1`. -/
theorem sink_context_numbering (path : String) (C : Nat) (events : List SinkEvent)
    (r : SearchResult) (hr : r ∈ runSink path C events) :
    (∀ i (h : i < r.context_before.length),
      (r.context_before.get ⟨i, h⟩).1 = r.line_number - (r.context_before.length - i)) ∧
    (∀ j (h : j < r.context_after.length),
      (r.context_after.get ⟨j, h⟩).1 = r.line_number + j + 1) :=
  runSinkFrom_numbered events (SearchSink.new path C)
    (by intro r' h; simp [SearchSink.new] at h) r hr

/-- C2 witness: the amended numbering evaluated on the record emitted for
`exEventsC2` — the single before entry at index 0 carries
`2 − (1 − 0) = 1`. -/
theorem sink_context_numbering_witness :
    (rExC2.context_before.get ⟨0, by decide⟩).1 =
      rExC2.line_number - (rExC2.context_before.length - 0) :=
  (sink_context_numbering "f" 2 exEventsC2 rExC2 (by decide)).1 0 (by decide)

/-- C3: the extraction path on a 5-line document with a match at line 2
and `C = 2` emits exactly one record whose after-context is correct but
whose single before-context entry carries line number 0 instead of 1:
the slice-based numbering subtracts the configured `C` instead of the
actual slice length, contradicting the spec's contiguity invariant and
its concrete scenario. -/
theorem pdf_before_numbering_bug :
    pdfResults "doc.pdf" ((buildMatcher false "needle").getD []) 2
      ["alpha", "needle here", "gamma", "delta", "epsilon"] =
    [{ path := "doc.pdf", line_number := 2, line := "needle here",
       context_before := [(0, "alpha")],
       context_after := [(3, "gamma"), (4, "delta")] }] := by decide

/-- C4: a match event arriving while a match is pending finalizes and
emits the pending match immediately, with exactly the after-context
accumulated so far (one record, length equal to the accumulated
buffer, however short). -/
theorem match_truncates_pending (s : SearchSink) (n : Option Nat) (b : Option String)
    (r : SearchResult) (h : s.last_match = some r) :
    (s.matched n b).2 =
      [{ r with context_after :=
          s.context_after.mapIdx (fun i line => (r.line_number + i + 1, line)) }] ∧
    ∀ r' ∈ (s.matched n b).2, r'.context_after.length = s.context_after.length := by
  have h2 : (s.matched n b).2 = [finalized r s.context_after] := by
    cases b with
    | none => rw [matched_none_eq, send_last_match_some h]
    | some line => rw [matched_some_eq, send_last_match_some h]
  refine ⟨h2, ?_⟩
  intro r' hr
  rw [h2] at hr
  simp only [List.mem_singleton] at hr
  subst hr
  simp [finalized, List.length_mapIdx]

/-- C4 witness: two matches 1 line apart with `C = 2` — the second match
(line 5) truncates the first's after-context to the single accumulated
line 4. -/
theorem match_truncates_pending_witness :
    (s4.matched (some 5) (some "m5")).2 = [r3fin] ∧ r3fin.context_after.length = 1 := by
  have h := match_truncates_pending s4 (some 5) (some "m5") r3 (by decide)
  exact ⟨h.1.trans (by decide), by decide⟩

/-- C5: a PDF whose extraction fails (tool missing, nonzero exit, or
internal fault) contributes no records, prints a diagnostic exactly
when verbose is set, and the worker continues with the remaining
entries — no hard error reaches the caller. -/
theorem pdf_failure_recovered (verbose : Bool) (matcher : List RTok) (C : Nat)
    (e : DirEntry) (rest : List DirEntry)
    (hext : e.extension = some "pdf") (hfail : e.pdf.isFailure = true) :
    (processEntry verbose matcher C e).1 = [] ∧
    ((processEntry verbose matcher C e).2 = [] ↔ verbose = false) ∧
    (workerRun false verbose matcher C (e :: rest)).1 =
      (workerRun false verbose matcher C rest).1 ∧
    (workerRun false verbose matcher C (e :: rest)).2 =
      (processEntry verbose matcher C e).2 ++ (workerRun false verbose matcher C rest).2 := by
  have hres : (processEntry verbose matcher C e).1 = [] ∧
      ((processEntry verbose matcher C e).2 = [] ↔ verbose = false) := by
    cases hp : e.pdf with
    | toolError msg =>
      cases verbose <;> simp [processEntry, hext, search_pdf, hp]
    | exitFailure =>
      cases verbose <;> simp [processEntry, hext, search_pdf, hp]
    | panicked =>
      cases verbose <;> simp [processEntry, hext, search_pdf, hp]
    | extracted lines => rw [hp] at hfail; simp [PdfOutcome.isFailure] at hfail
  refine ⟨hres.1, hres.2, ?_, ?_⟩
  · simp [workerRun, hres.1]
  · simp [workerRun]

/-- C5 witness: a PDF entry whose extraction panics, in verbose mode,
yields no records and the worker proceeds to the rest of the queue. -/
theorem pdf_failure_recovered_witness :
    (processEntry true [] 2 ePdfFail).1 = [] ∧
    (workerRun false true [] 2 [ePdfFail]).1 = (workerRun false true [] 2 []).1 :=
  ⟨(pdf_failure_recovered true [] 2 ePdfFail [] rfl rfl).1,
   (pdf_failure_recovered true [] 2 ePdfFail [] rfl rfl).2.2.1⟩

/-- C6: with the cancellation token already set, the walker dispatches no
entry, every worker stops before processing any entry, and a
successfully constructed search returns the empty result sequence. -/
theorem cancel_pre_set :
    (∀ (patterns : List String) (fs : List (Option DirEntry)),
      walkerRun true patterns fs = []) ∧
    (∀ (verbose : Bool) (matcher : List RTok) (C : Nat) (entries : List DirEntry),
      workerRun true verbose matcher C entries = ([], [])) ∧
    (∀ (cfg : SearchConfig) (fs : List (Option DirEntry)) (l : List SearchResult),
      search cfg fs true = .ok l → l = []) := by
  refine ⟨?_, ?_, ?_⟩
  · intro patterns fs; cases fs <;> simp [walkerRun]
  · intro v m C es; cases es <;> simp [workerRun]
  · intro cfg fs l h
    cases hm : buildMatcher cfg.use_regex cfg.query with
    | none => simp [search, hm] at h
    | some m =>
      have hw : walkerRun true cfg.patterns fs = [] := by cases fs <;> simp [walkerRun]
      simp [search, hm, hw, workerRun] at h
      exact h

/-- C6 witness: a pre-cancelled search over a filesystem containing a
matching file returns `ok []`. -/
theorem cancel_pre_set_witness :
    search cfgEx [some entryTxt] true = .ok [] ∧ ([] : List SearchResult) = [] :=
  ⟨rfl, cancel_pre_set.2.2 cfgEx [some entryTxt] [] rfl⟩

/-- C7: every record either path emits has at most `C` before-context
entries and at most `C` after-context entries. -/
theorem context_windows_bounded :
    (∀ (path : String) (C : Nat) (events : List SinkEvent) (r : SearchResult),
      r ∈ runSink path C events →
      r.context_before.length ≤ C ∧ r.context_after.length ≤ C) ∧
    (∀ (path : String) (matcher : List RTok) (C : Nat) (lines : List String)
      (r : SearchResult), r ∈ pdfResults path matcher C lines →
      r.context_before.length ≤ C ∧ r.context_after.length ≤ C) := by
  constructor
  · intro path C events r hr
    refine runSinkFrom_bounded events (SearchSink.new path C) ?_ r hr
    refine ⟨rfl, by simp [SearchSink.new], by simp [SearchSink.new], ?_⟩
    intro r' h
    simp [SearchSink.new] at h
  · intro path matcher C lines r hr
    obtain ⟨idx, trimmed, rfl⟩ := pdfResults_mem hr
    exact pdfRecord_bounded path C lines idx trimmed

/-- C7 witness: concrete records from both paths, produced with `C = 2`
from more than 2 available lines on each side, stay within the bound. -/
theorem context_windows_bounded_witness :
    (rExC7.context_before.length ≤ 2 ∧ rExC7.context_after.length ≤ 2) ∧
    (rPdfC7.context_before.length ≤ 2 ∧ rPdfC7.context_after.length ≤ 2) :=
  ⟨context_windows_bounded.1 "g" 2 exEventsC7 rExC7 (by decide),
   context_windows_bounded.2 "g.pdf" ((buildMatcher false "hit").getD []) 2 pdfLinesC7
     rPdfC7 (by decide)⟩

/-- C8: with `use_regex` false the compiled matcher implements exact
substring containment of the query — for every query and line; in
particular `a.b` matches a line containing `a.b` but not one containing
`axb`, while in regex mode the same query matches both. -/
theorem literal_vs_regex_matching :
    (∀ q l : String, (buildMatcher false q).map (fun m => isMatch m l) =
      some (containsSub q.data l.data)) ∧
    (buildMatcher false "a.b").map (fun m => isMatch m "za.bz") = some true ∧
    (buildMatcher false "a.b").map (fun m => isMatch m "zaxbz") = some false ∧
    (buildMatcher true "a.b").map (fun m => isMatch m "za.bz") = some true ∧
    (buildMatcher true "a.b").map (fun m => isMatch m "zaxbz") = some true := by
  refine ⟨?_, by decide, by decide, by decide, by decide⟩
  intro q l
  simp [buildMatcher, compile_escape, isMatch, searchFrom_lit]

/-- C9: `search_files` returns exactly the fully drained contents of
`search`'s result sequence, for every configuration, filesystem and
cancellation state. -/
theorem search_files_drains_search (cfg : SearchConfig) (fs : List (Option DirEntry))
    (quit : Bool) : search_files cfg fs quit = search cfg fs quit := by
  unfold search_files
  cases h : search cfg fs quit with
  | error e => rfl
  | ok l => simp [Except.map, collectIter_eq]

/-- C10: a match event whose bytes are invalid UTF-8 acts exactly like a
flush: any pending match is finalized and emitted, no pending record
remains for the invalid line, and nothing beyond the flushed record is
emitted. -/
theorem invalid_utf8_match_dropped (s : SearchSink) (n : Option Nat) :
    s.matched n none = s.send_last_match ∧
    (s.matched n none).1.last_match = none ∧
    (s.matched n none).2.length = (if s.last_match = none then 0 else 1) := by
  refine ⟨rfl, ?_, ?_⟩
  · cases h : s.last_match with
    | none => rw [matched_none_eq, send_last_match_none h]; exact h
    | some r => rw [matched_none_eq, send_last_match_some h]
  · cases h : s.last_match with
    | none => rw [matched_none_eq, send_last_match_none h]; simp [h]
    | some r => rw [matched_none_eq, send_last_match_some h]; simp [h]

end Quicksearch
